import Mathlib

/-!
Shallow embedding of the interleaved-thinking step-processing engine
(`lib.ts`): phase inference, validation, step bookkeeping, and the
tool-call manager with budget, cache and mock handling.

JavaScript numbers reaching the engine are modelled as rationals
(`Option ℚ`, `none` standing for `undefined`), since the engine only
compares and copies them; optional strings are `Option String`.
Falsiness of `undefined`, `0` and `""` is modelled explicitly.
-/

namespace InterleavedThinking

/-- JavaScript truthiness of an optional number: `undefined` and `0` are falsy. -/
def numFalsy : Option ℚ → Bool
  | none => true
  | some q => q == 0

/-- JavaScript truthiness of an optional string: `undefined` and `""` are falsy. -/
def strFalsy : Option String → Bool
  | none => true
  | some s => s == ""

/-- JavaScript `a < b` on an optional number: `undefined < b` is false. -/
def optNumLt : Option ℚ → ℚ → Bool
  | none, _ => false
  | some a, b => a < b

/-- JavaScript `a > b` on optional numbers: any comparison with `undefined` is false. -/
def optNumGt : Option ℚ → Option ℚ → Bool
  | some a, some b => a > b
  | _, _ => false

/-- JavaScript `String.prototype.includes`: substring test. -/
def strIncludes (s pat : String) : Bool :=
  (s.toList.tails).any (fun t => pat.toList.isPrefixOf t)

/-- `ToolCallData` from `lib.ts`. `parameters` is kept in its JSON-serialized
form (the engine never inspects it other than serializing it for cache keys
and payloads, and `JSON.stringify` is deterministic on a given object). The
optional `metadata` object is flattened into its three optional fields. -/
structure ToolCallData where
  toolName : String
  parameters : String
  timeout : Option ℕ
  retryCount : Option ℕ
  priority : Option String
deriving DecidableEq, Repr

/-- The `error` component of `ToolResultData`. -/
structure ErrorInfo where
  type : String
  message : String
  recoveryStrategy : Option String
deriving DecidableEq, Repr

/-- The `result` payload produced by `simulateToolExecution` in `lib.ts`
(an object with a `message` and the echoed `parameters`). -/
structure ResultPayload where
  message : String
  parameters : String
deriving DecidableEq, Repr

/-- `ToolResultData` from `lib.ts`. -/
structure ToolResultData where
  toolName : String
  success : Bool
  result : Option ResultPayload
  error : Option ErrorInfo
  executionTime : ℕ
  timestamp : String
deriving DecidableEq, Repr

/-- `InterleavedStepData` from `lib.ts`. Fields that are optional in the
TypeScript interface (or can arrive as `undefined` from the wire) are
`Option`-valued; `phase` is kept as a raw optional string exactly as it
arrives, since the code validates it against the three phase literals. -/
structure InterleavedStepData where
  thought : String
  stepNumber : Option ℚ
  totalSteps : Option ℚ
  nextStepNeeded : Option Bool
  isRevision : Option Bool
  revisesStep : Option ℚ
  branchFromStep : Option ℚ
  branchId : Option String
  needsMoreSteps : Option Bool
  phase : Option String
  toolCall : Option ToolCallData
  toolResult : Option ToolResultData
deriving DecidableEq, Repr

/-- `ToolCallRecord` from `lib.ts`. -/
structure ToolCallRecord where
  stepNumber : Option ℚ
  toolCall : ToolCallData
  result : ToolResultData
deriving DecidableEq, Repr

/-! ## ToolCallManager -/

/-- Mutable state of `ToolCallManager` plus its construction-time config.
`resultCache` and `mockResults` are JavaScript `Map`s, modelled as
association lists in insertion order. -/
structure TCMState where
  maxToolCalls : ℕ
  defaultTimeout : ℕ
  enableCache : Bool
  callCount : ℕ
  resultCache : List (String × ToolResultData)
  mockResults : Option (List (String × ToolResultData))
deriving DecidableEq, Repr

/-- `Map.prototype.get`: the binding of the key (keys are unique). -/
def mapGet : List (String × ToolResultData) → String → Option ToolResultData
  | [], _ => none
  | p :: rest, k => if p.1 == k then some p.2 else mapGet rest k

/-- `Map.prototype.set`: overwrite the binding in place if the key is
present, else append a new binding. -/
def mapSet : List (String × ToolResultData) → String → ToolResultData →
    List (String × ToolResultData)
  | [], k, v => [(k, v)]
  | p :: rest, k, v => if p.1 == k then (k, v) :: rest else p :: mapSet rest k v

/-- `ToolCallManager.getCacheKey`: `toolName` + ":" + serialized parameters;
metadata does not enter the key. -/
def getCacheKey (tc : ToolCallData) : String :=
  tc.toolName ++ ":" ++ tc.parameters

/-- `ToolCallManager.canExecuteToolCall`. -/
def canExecuteToolCall (st : TCMState) : Bool :=
  st.callCount < st.maxToolCalls

/-- The mock-result lookup performed at the top of `executeToolCall`
(only when `mockResults` has been injected). -/
def mockLookup (st : TCMState) (key : String) : Option ToolResultData :=
  match st.mockResults with
  | some mocks => mapGet mocks key
  | none => none

/-- The cache lookup performed by `executeToolCall` (only when caching
is enabled). -/
def cacheLookup (st : TCMState) (key : String) : Option ToolResultData :=
  if st.enableCache then mapGet st.resultCache key else none

/-- `ToolCallManager.simulateToolExecution`: the built-in executor, which
always succeeds and leaves `executionTime`/`timestamp` for the caller to
stamp (`0` and `""`). -/
def simulateToolExecution (tc : ToolCallData) : ToolResultData :=
  { toolName := tc.toolName
    success := true
    result := some { message := "Mock result for " ++ tc.toolName, parameters := tc.parameters }
    error := none
    executionTime := 0
    timestamp := "" }

/-- The rejection message produced by `createTimeoutPromise`. -/
def timeoutMessage (timeout : ℕ) : String :=
  "Tool execution timeout after " ++ toString timeout ++ "ms"

/-- Outcome of the `Promise.race` between the executor and the timeout:
either the executor resolved with a result, or a rejection with an error
message (the timeout promise rejects with `timeoutMessage`). -/
inductive RaceOutcome where
  | resolved (r : ToolResultData)
  | rejected (message : String)
deriving DecidableEq, Repr

/-- Environment for one `executeToolCall`: which promise won the race, the
elapsed wall-clock time `Date.now() - startTime`, and the ISO timestamp at
completion. These are the only nondeterministic inputs of the call. -/
structure ExecEnv where
  raceOutcome : RaceOutcome
  elapsed : ℕ
  timestampNow : String
deriving DecidableEq, Repr

/-- The failure `ToolResultData` synthesized in the `catch` block of
`executeToolCall`. -/
def failureResult (tc : ToolCallData) (message : String) (env : ExecEnv) : ToolResultData :=
  { toolName := tc.toolName
    success := false
    result := none
    error := some
      { type := if strIncludes message "timeout" then "TimeoutError" else "ToolExecutionError"
        message := message
        recoveryStrategy := some
          (if strIncludes message "timeout" then "Use simpler tool or increase timeout"
           else "Retry with adjusted parameters or use alternative tool") }
    executionTime := env.elapsed
    timestamp := env.timestampNow }

/-- `ToolCallManager.executeToolCall`. Throwing is modelled with `Except`:
the only `throw` is the budget check, which happens before the counter is
incremented and before the mock lookup, the cache lookup and the race. -/
def executeToolCall (st : TCMState) (tc : ToolCallData) (env : ExecEnv) :
    Except String (ToolResultData × TCMState) :=
  if ¬ canExecuteToolCall st then
    .error "Tool call limit reached"
  else
    let st1 : TCMState := { st with callCount := st.callCount + 1 }
    let key := getCacheKey tc
    match mockLookup st1 key with
    | some mockResult => .ok (mockResult, st1)
    | none =>
      match cacheLookup st1 key with
      | some cached => .ok (cached, st1)
      | none =>
        match env.raceOutcome with
        | .resolved result =>
          let st2 : TCMState :=
            if st1.enableCache && result.success then
              { st1 with resultCache := mapSet st1.resultCache key result }
            else st1
          .ok ({ result with executionTime := env.elapsed, timestamp := env.timestampNow }, st2)
        | .rejected message =>
          .ok (failureResult tc message env, st1)

/-- Decidable equality for `Except` results, so that concrete runs of
`executeToolCall` can be checked by evaluation. -/
instance instDecEqExcept {e a : Type} [DecidableEq e] [DecidableEq a] :
    DecidableEq (Except e a) := fun x y =>
  match x, y with
  | .error x1, .error y1 =>
    if h : x1 = y1 then isTrue (by rw [h]) else isFalse (by simp [h])
  | .error _, .ok _ => isFalse (by simp)
  | .ok _, .error _ => isFalse (by simp)
  | .ok x1, .ok y1 =>
    if h : x1 = y1 then isTrue (by rw [h]) else isFalse (by simp [h])

/-- `ToolCallManager.reset`: zero the counter and clear the cache;
`mockResults` is untouched. -/
def TCMState.reset (st : TCMState) : TCMState :=
  { st with callCount := 0, resultCache := [] }

/-! ## StateManager -/

/-- Mutable state of `StateManager`: main step sequence, branch buckets
(a plain object, modelled as an association list keyed by branch id, in
key-creation order), and the tool-call audit log. -/
structure SMState where
  steps : List InterleavedStepData
  branches : List (String × List InterleavedStepData)
  toolCalls : List ToolCallRecord
deriving DecidableEq, Repr

/-- The empty state a fresh `StateManager` starts with. -/
def emptySM : SMState :=
  { steps := [], branches := [], toolCalls := [] }

/-- Append a step into a named branch bucket, creating the bucket if absent. -/
def addToBranch (bs : List (String × List InterleavedStepData)) (k : String)
    (step : InterleavedStepData) : List (String × List InterleavedStepData) :=
  if (bs.find? (fun p => p.1 == k)).isSome then
    bs.map (fun p => if p.1 == k then (p.1, p.2 ++ [step]) else p)
  else
    bs ++ [(k, [step])]

/-- `StateManager.addStep`: push onto the main sequence; if the step carries
truthy `branchFromStep` and `branchId`, also register it in that branch. -/
def SMState.addStep (sm : SMState) (step : InterleavedStepData) : SMState :=
  { sm with
    steps := sm.steps ++ [step]
    branches :=
      if !numFalsy step.branchFromStep && !strFalsy step.branchId then
        addToBranch sm.branches (step.branchId.getD "") step
      else sm.branches }

/-- `StateManager.addToolCall`. -/
def SMState.addToolCall (sm : SMState) (record : ToolCallRecord) : SMState :=
  { sm with toolCalls := sm.toolCalls ++ [record] }

/-- `StateManager.getStep`: the first step of the main sequence whose
`stepNumber` strictly equals `n`. -/
def SMState.getStep (sm : SMState) (n : ℚ) : Option InterleavedStepData :=
  sm.steps.find? (fun s => s.stepNumber == some n)

/-- `StateManager.getLastToolResult`. -/
def SMState.getLastToolResult (sm : SMState) : Option ToolResultData :=
  (sm.toolCalls.getLast?).map (fun r => r.result)

/-- The statistics block computed by `StateManager.calculateStatistics`. -/
structure Statistics where
  totalSteps : ℕ
  totalToolCalls : ℕ
  successfulToolCalls : ℕ
  failedToolCalls : ℕ
  totalExecutionTime : ℕ
deriving DecidableEq, Repr

/-- `StateManager.calculateStatistics`: recomputed from the logs on each read. -/
def SMState.calculateStatistics (sm : SMState) : Statistics :=
  { totalSteps := sm.steps.length
    totalToolCalls := sm.toolCalls.length
    successfulToolCalls := (sm.toolCalls.filter (fun r => r.result.success)).length
    failedToolCalls := (sm.toolCalls.filter (fun r => !r.result.success)).length
    totalExecutionTime := (sm.toolCalls.map (fun r => r.result.executionTime)).sum }

/-- `StepHistory` as returned by `StateManager.getHistory` (a snapshot). -/
structure StepHistory where
  steps : List InterleavedStepData
  branches : List (String × List InterleavedStepData)
  toolCalls : List ToolCallRecord
  statistics : Statistics
deriving DecidableEq, Repr

/-- `StateManager.getHistory`. -/
def SMState.getHistory (sm : SMState) : StepHistory :=
  { steps := sm.steps
    branches := sm.branches
    toolCalls := sm.toolCalls
    statistics := sm.calculateStatistics }

/-! ## InterleavedThinkingServer -/

/-- The whole mutable state of one `InterleavedThinkingServer` session
(the logger is a write-only diagnostic side channel and carries no state
relevant to the returned data, so it is omitted). -/
structure ServerState where
  tcm : TCMState
  sm : SMState
deriving DecidableEq, Repr

/-- A server as built by the constructor from an explicit configuration. -/
def mkServer (maxToolCalls defaultTimeout : ℕ) (enableResultCache : Bool) : ServerState :=
  { tcm :=
      { maxToolCalls := maxToolCalls
        defaultTimeout := defaultTimeout
        enableCache := enableResultCache
        callCount := 0
        resultCache := []
        mockResults := none }
    sm := emptySM }

/-- A server built with all configuration defaults
(`maxToolCalls` 50, `defaultTimeout` 30000, cache enabled). -/
def defaultServer : ServerState :=
  mkServer 50 30000 true

/-- `InterleavedThinkingServer.reset`: reset the tool-call manager and
replace the state manager with a fresh one. -/
def ServerState.reset (st : ServerState) : ServerState :=
  { tcm := st.tcm.reset, sm := emptySM }

/-- `InterleavedThinkingServer.injectMockResults`. -/
def ServerState.injectMockResults (st : ServerState)
    (mocks : List (String × ToolResultData)) : ServerState :=
  { st with tcm := { st.tcm with mockResults := some mocks } }

/-- The list of admissible phase literals. -/
def phaseLiterals : List String :=
  ["thinking", "tool_call", "analysis"]

/-- `InterleavedThinkingServer.validateInput`: `some message` models a
thrown `Error(message)`, `none` models passing. The checks run in source
order and the first violation wins. -/
def validateInput (input : InterleavedStepData) : Option String :=
  if numFalsy input.stepNumber || optNumLt input.stepNumber 1 then
    some "stepNumber must be a positive integer"
  else if numFalsy input.totalSteps || optNumLt input.totalSteps 1 then
    some "totalSteps must be a positive integer"
  else if input.nextStepNeeded == none then
    some "nextStepNeeded is required"
  else if !strFalsy input.phase && !(phaseLiterals.contains (input.phase.getD "")) then
    some "phase must be one of: thinking, tool_call, analysis"
  else
    none

/-- Exact rational subtraction of 1 (the `input.stepNumber - 1` of the
source). Mathlib's `Rat.sub` is `@[irreducible]`, which blocks kernel
evaluation, so this is spelled with `Rat.normalize`; `ratPred_eq_sub_one`
below proves it equal to `a - 1`. -/
def ratPred (a : ℚ) : ℚ :=
  Rat.normalize (a.num - a.den) a.den a.den_nz

/-- `InterleavedThinkingServer.inferPhase`, over the stored main sequence:
explicit truthy phase wins; else a present `toolCall` means `tool_call`;
else the first stored step numbered `stepNumber - 1` having recorded phase
`tool_call` means `analysis`; else `thinking`. (When `stepNumber` is
`undefined` the JavaScript lookup key is `NaN`, which matches no stored
step, so the result is `thinking`.) -/
def inferPhase (sm : SMState) (input : InterleavedStepData) : String :=
  if !strFalsy input.phase then
    input.phase.getD ""
  else if input.toolCall.isSome then
    "tool_call"
  else
    match input.stepNumber with
    | none => "thinking"
    | some n =>
      match sm.getStep (ratPred n) with
      | some lastStep => if lastStep.phase == some "tool_call" then "analysis" else "thinking"
      | none => "thinking"

/-- The JSON error payload built by `InterleavedThinkingServer.handleError`. -/
structure ErrorPayload where
  error : ErrorInfo
  status : String
deriving DecidableEq, Repr

/-- The JSON success payload built at the end of `processStep`. The
`toolResult` member, present only when a tool result exists for this call,
is the reduced view `(success, executionTime)`. -/
structure StepResponse where
  stepNumber : Option ℚ
  totalSteps : Option ℚ
  nextStepNeeded : Option Bool
  branches : List String
  stepHistoryLength : ℕ
  phase : String
  toolResult : Option (Bool × ℕ)
deriving DecidableEq, Repr

/-- The JSON document inside the single `content` text item of a
`ProcessResult`: either the success payload or the error payload. -/
inductive ResponseBody where
  | success (r : StepResponse)
  | failure (e : ErrorPayload)
deriving DecidableEq, Repr

/-- `ProcessResult` from `lib.ts`; `isError` is absent on success and
`true` on the error path. -/
structure ProcessResult where
  content : ResponseBody
  isError : Option Bool
deriving DecidableEq, Repr

/-- `InterleavedThinkingServer.handleError`: classify the error message by
substring and wrap it in the uniform error payload. -/
def handleError (errorMessage : String) : ProcessResult :=
  let errorType :=
    if strIncludes errorMessage "limit reached" then "ToolCallLimitError"
    else if strIncludes errorMessage "timeout" then "TimeoutError"
    else if strIncludes errorMessage "required" then "ValidationError"
    else "Error"
  let recoveryStrategy :=
    if strIncludes errorMessage "limit reached" then
      "Summarize progress and terminate or reset the server"
    else if strIncludes errorMessage "timeout" then
      "Use simpler tool or increase timeout"
    else if strIncludes errorMessage "required" then
      "Provide all required fields"
    else
      "Check input parameters and try again"
  { content := .failure
      { error :=
          { type := errorType
            message := errorMessage
            recoveryStrategy := some recoveryStrategy }
        status := "failed" }
    isError := some true }

/-- The commit tail of `processStep`: `addStep` into the state manager and
assemble the success response from the fresh history snapshot. -/
def commitStep (input : InterleavedStepData) (st : ServerState)
    (toolResult : Option ToolResultData) : ProcessResult × ServerState :=
  let sm1 := st.sm.addStep input
  let history := sm1.getHistory
  let response : StepResponse :=
    { stepNumber := input.stepNumber
      totalSteps := input.totalSteps
      nextStepNeeded := input.nextStepNeeded
      branches := history.branches.map (fun p => p.1)
      stepHistoryLength := history.steps.length
      phase := input.phase.getD ""
      toolResult := toolResult.map (fun r => (r.success, r.executionTime)) }
  ({ content := .success response, isError := none }, { st with sm := sm1 })

/-- `InterleavedThinkingServer.processStep`. The surrounding `try`/`catch`
is modelled by routing every thrown message through `handleError`; every
throwing point in the source precedes all state mutation, so the state
returned on the error path is the incoming one. -/
def processStep (input : InterleavedStepData) (st : ServerState) (env : ExecEnv) :
    ProcessResult × ServerState :=
  match validateInput input with
  | some msg => (handleError msg, st)
  | none =>
    let phase := inferPhase st.sm input
    let input1 : InterleavedStepData := { input with phase := some phase }
    let input2 : InterleavedStepData :=
      if optNumGt input1.stepNumber input1.totalSteps then
        { input1 with totalSteps := input1.stepNumber }
      else input1
    if phase == "tool_call" then
      match input2.toolCall with
      | none => (handleError "toolCall is required for tool_call phase", st)
      | some tc =>
        match executeToolCall st.tcm tc env with
        | .error msg => (handleError msg, st)
        | .ok (toolResult, tcm1) =>
          let sm1 := st.sm.addToolCall
            { stepNumber := input2.stepNumber, toolCall := tc, result := toolResult }
          let input3 : InterleavedStepData := { input2 with toolResult := some toolResult }
          commitStep input3 { tcm := tcm1, sm := sm1 } (some toolResult)
    else if phase == "analysis" then
      commitStep input2 st st.sm.getLastToolResult
    else
      commitStep input2 st none

/-! ## Specification-side definitions (for refinement comparisons) -/

/-- The phase-inference rule exactly as the natural-language specification
words it, written independently of `inferPhase` for comparison: a present
`toolCall` means `tool_call`; otherwise, if the first stored step whose
`stepNumber` equals the incoming `stepNumber` minus 1 has recorded phase
`tool_call`, the phase is `analysis`; otherwise `thinking`. -/
def specResolvedPhase (sm : SMState) (input : InterleavedStepData) : String :=
  if input.toolCall.isSome then "tool_call"
  else
    match input.stepNumber with
    | none => "thinking"
    | some n =>
      match sm.steps.find? (fun s => s.stepNumber == some (ratPred n)) with
      | some prev => if prev.phase == some "tool_call" then "analysis" else "thinking"
      | none => "thinking"

/-! ## Concrete fixtures used by witnesses and counterexamples -/

/-- A minimal well-formed input: step 1 of 1, next step needed, no
optional fields. -/
def baseInput : InterleavedStepData :=
  { thought := "t", stepNumber := some 1, totalSteps := some 1, nextStepNeeded := some true,
    isRevision := none, revisesStep := none, branchFromStep := none, branchId := none,
    needsMoreSteps := none, phase := none, toolCall := none, toolResult := none }

/-- An execution environment for runs that never reach the race. -/
def idleEnv : ExecEnv :=
  { raceOutcome := .rejected "unused", elapsed := 0, timestampNow := "" }

/-- The rational 3/2, i.e. the JavaScript number `1.5`, given by numerator
and denominator so that kernel reduction works. -/
def threeHalves : ℚ := ⟨3, 2, by decide, by decide⟩

/-- A sample tool call with no metadata. -/
def sampleCall : ToolCallData :=
  { toolName := "fetch", parameters := "\x7b\x22q\x22:\x22x\x22\x7d",
    timeout := none, retryCount := none, priority := none }

/-- First processed step of the C2 scenario: step 1 with a totalSteps
estimate of 10. -/
def c2FirstStep : InterleavedStepData :=
  { baseInput with totalSteps := some 10, phase := some "thinking" }

/-- Second processed step of the C2 scenario: step 2 with a totalSteps
estimate of 2. -/
def c2SecondStep : InterleavedStepData :=
  { baseInput with stepNumber := some 2, totalSteps := some 2, phase := some "thinking" }

/-- Session state after processing `c2FirstStep` on a fresh server. -/
def c2StateAfter1 : ServerState := (processStep c2FirstStep defaultServer idleEnv).2

/-- Session state after then processing `c2SecondStep`. -/
def c2StateAfter2 : ServerState := (processStep c2SecondStep c2StateAfter1 idleEnv).2

/-- Witness input for the amended C2: step 5 with totalSteps estimate 3. -/
def c2WitnessInput : InterleavedStepData :=
  { baseInput with stepNumber := some 5, totalSteps := some 3, phase := some "thinking" }

/-- A server whose tool-call budget is exhausted from the start
(`maxToolCalls` 0). -/
def c3Server : ServerState := mkServer 0 30000 true

/-- An input with `stepNumber` 0 (falsy in JavaScript). -/
def c4ZeroInput : InterleavedStepData :=
  { baseInput with stepNumber := some 0, phase := some "thinking" }

/-- An input with the non-integer `stepNumber` 1.5. -/
def c4HalfInput : InterleavedStepData :=
  { baseInput with stepNumber := some threeHalves, totalSteps := some 2, phase := some "thinking" }

/-- An input missing `stepNumber` entirely, hence rejected by validation. -/
def c7RejectedInput : InterleavedStepData :=
  { baseInput with stepNumber := none }

/-- An environment in which the timeout promise (1000 ms) won the race. -/
def timeoutEnv : ExecEnv :=
  { raceOutcome := .rejected (timeoutMessage 1000), elapsed := 1000, timestampNow := "T2" }

/-- A fresh caching tool-call manager with budget 3. -/
def c6Manager : TCMState := (mkServer 3 1000 true).tcm

/-- `sampleCall` with different metadata (timeout and priority). -/
def sampleCallMeta : ToolCallData :=
  { sampleCall with timeout := some 5, priority := some "high" }

/-- An environment in which the built-in executor won the race after 7 ms. -/
def c6Env1 : ExecEnv :=
  { raceOutcome := .resolved (simulateToolExecution sampleCall), elapsed := 7, timestampNow := "T1" }

/-- `c6Manager` after one executed-and-cached call of `sampleCall`. -/
def c6After1 : TCMState :=
  { c6Manager with
    callCount := 1
    resultCache := [(getCacheKey sampleCall, simulateToolExecution sampleCall)] }

/-- A fresh tool-call manager with caching disabled. -/
def c6ManagerNoCache : TCMState := (mkServer 3 1000 false).tcm

/-- A mock fixture result, as a test would inject. -/
def c9Fixture : ToolResultData :=
  { toolName := "fetch", success := true, result := none, error := none,
    executionTime := 3, timestamp := "mock-time" }

/-- A server mid-session: 7 calls issued, a cached entry, an injected mock
and one stored step. -/
def c9DirtyServer : ServerState :=
  { tcm :=
      { maxToolCalls := 50
        defaultTimeout := 30000
        enableCache := true
        callCount := 7
        resultCache := [(getCacheKey sampleCallMeta, c9Fixture)]
        mockResults := some [(getCacheKey sampleCall, c9Fixture)] }
    sm := { steps := [baseInput], branches := [], toolCalls := [] } }

/-! ## Helper lemmas -/

/-- `ratPred` is subtraction of 1. -/
theorem ratPred_eq_sub_one (a : ℚ) : ratPred a = a - 1 := by
  rw [ratPred, Rat.normalize_eq_mkRat, Rat.mkRat_eq_divInt, Rat.divInt_eq_div]
  push_cast
  rw [sub_div, Rat.num_div_den, div_self (by exact_mod_cast a.den_nz)]

/-- Setting a key makes it retrievable with exactly the stored value. -/
theorem mapGet_mapSet_self (m : List (String × ToolResultData)) (k : String)
    (v : ToolResultData) : mapGet (mapSet m k v) k = some v := by
  induction m with
  | nil => simp [mapSet, mapGet]
  | cons p rest ih =>
    by_cases h : p.1 = k
    · simp [mapSet, mapGet, h]
    · simp [mapSet, mapGet, h, ih]

/-- Every binding after a `mapSet` is an old binding or the new one. -/
theorem mem_mapSet (m : List (String × ToolResultData)) (k : String)
    (v : ToolResultData) (p : String × ToolResultData) (hp : p ∈ mapSet m k v) :
    p ∈ m ∨ p = (k, v) := by
  induction m with
  | nil => simp [mapSet] at hp; simp [hp]
  | cons q rest ih =>
    by_cases h : q.1 = k
    · simp [mapSet, h] at hp
      rcases hp with hp | hp
      · right; simp [hp]
      · left; simp [hp]
    · simp [mapSet, h] at hp
      rcases hp with hp | hp
      · left; simp [hp]
      · rcases ih hp with hin | hnew
        · left; simp [hin]
        · right; exact hnew

/-- Whenever the budget check passes, `executeToolCall` returns `.ok` —
it never throws past that point. -/
theorem executeToolCall_ok_of_budget (st : TCMState) (tc : ToolCallData) (env : ExecEnv)
    (hcan : canExecuteToolCall st = true) :
    ∃ res stX, executeToolCall st tc env = .ok (res, stX) := by
  unfold executeToolCall
  rw [hcan]
  simp only [not_true_eq_false, Bool.false_eq_true, if_false]
  rcases hm : mockLookup { st with callCount := st.callCount + 1 } (getCacheKey tc) with _ | fix
  · rcases hc : cacheLookup { st with callCount := st.callCount + 1 } (getCacheKey tc) with _ | cached
    · rcases hr : env.raceOutcome with r | m
      · simp only [hm, hc, hr]
        exact ⟨_, _, rfl⟩
      · simp only [hm, hc, hr]
        exact ⟨_, _, rfl⟩
    · simp only [hm, hc]
      exact ⟨_, _, rfl⟩
  · simp only [hm]
    exact ⟨_, _, rfl⟩

/-- `executeToolCall` on a fresh key (no mock, cache miss, budget left)
when the executor resolves: the returned result is stamped and the raw
result is cached exactly when caching is on and it succeeded. -/
theorem executeToolCall_fresh (st : TCMState) (tc : ToolCallData) (env : ExecEnv)
    (r : ToolResultData)
    (hmock : mockLookup st (getCacheKey tc) = none)
    (hmiss : cacheLookup st (getCacheKey tc) = none)
    (hbudget : canExecuteToolCall st = true)
    (hrace : env.raceOutcome = .resolved r) :
    executeToolCall st tc env =
      .ok ({ r with executionTime := env.elapsed, timestamp := env.timestampNow },
           if st.enableCache && r.success then
             { st with callCount := st.callCount + 1,
                       resultCache := mapSet st.resultCache (getCacheKey tc) r }
           else { st with callCount := st.callCount + 1 }) := by
  unfold executeToolCall
  rw [hbudget]
  simp only [not_true_eq_false, Bool.false_eq_true, if_false, hrace]
  have hmock1 : mockLookup { st with callCount := st.callCount + 1 } (getCacheKey tc) = none :=
    hmock
  have hmiss1 : cacheLookup { st with callCount := st.callCount + 1 } (getCacheKey tc) = none := by
    simpa [cacheLookup] using hmiss
  rw [hmock1, hmiss1]

/-- `executeToolCall` on a cache hit (no mock, budget left) returns the
cached object as-is, consuming one budget slot and touching nothing else. -/
theorem executeToolCall_cacheHit (st : TCMState) (tc : ToolCallData) (env : ExecEnv)
    (cached : ToolResultData)
    (hmock : mockLookup st (getCacheKey tc) = none)
    (hhit : cacheLookup st (getCacheKey tc) = some cached)
    (hbudget : canExecuteToolCall st = true) :
    executeToolCall st tc env = .ok (cached, { st with callCount := st.callCount + 1 }) := by
  unfold executeToolCall
  rw [hbudget]
  simp only [not_true_eq_false, Bool.false_eq_true, if_false]
  have hmock1 : mockLookup { st with callCount := st.callCount + 1 } (getCacheKey tc) = none :=
    hmock
  have hhit1 : cacheLookup { st with callCount := st.callCount + 1 } (getCacheKey tc) = some cached := by
    simpa [cacheLookup] using hhit
  rw [hmock1, hhit1]

/-- `executeToolCall` on a mock hit (budget left) returns the injected
fixture verbatim. -/
theorem executeToolCall_mockHit (st : TCMState) (tc : ToolCallData) (env : ExecEnv)
    (fixture : ToolResultData)
    (hmock : mockLookup st (getCacheKey tc) = some fixture)
    (hbudget : canExecuteToolCall st = true) :
    executeToolCall st tc env = .ok (fixture, { st with callCount := st.callCount + 1 }) := by
  unfold executeToolCall
  rw [hbudget]
  simp only [not_true_eq_false, Bool.false_eq_true, if_false]
  have hmock1 : mockLookup { st with callCount := st.callCount + 1 } (getCacheKey tc) = some fixture := by
    simpa [mockLookup] using hmock
  rw [hmock1]

/-- `executeToolCall` on a fresh key when the race rejects: the failure is
returned as a normal result and nothing is cached. -/
theorem executeToolCall_rejectedRun (st : TCMState) (tc : ToolCallData) (env : ExecEnv)
    (m : String)
    (hmock : mockLookup st (getCacheKey tc) = none)
    (hmiss : cacheLookup st (getCacheKey tc) = none)
    (hbudget : canExecuteToolCall st = true)
    (hrace : env.raceOutcome = .rejected m) :
    executeToolCall st tc env =
      .ok (failureResult tc m env, { st with callCount := st.callCount + 1 }) := by
  unfold executeToolCall
  rw [hbudget]
  simp only [not_true_eq_false, Bool.false_eq_true, if_false, hrace]
  have hmock1 : mockLookup { st with callCount := st.callCount + 1 } (getCacheKey tc) = none :=
    hmock
  have hmiss1 : cacheLookup { st with callCount := st.callCount + 1 } (getCacheKey tc) = none := by
    simpa [cacheLookup] using hmiss
  rw [hmock1, hmiss1]

/-! ## Claim C1 -/

/-- Claim C1: for every incoming step that passes validation and has no
explicit phase, the phase the engine resolves — both the pure `inferPhase`
value and the phase surfaced in any successful `processStep` response — is
exactly the specification's pure function of the `toolCall` field and the
stored history; being a function of these alone, re-running it on
identical history yields an identical phase. -/
theorem c1_phase_inference_matches_spec (st : ServerState) (input : InterleavedStepData)
    (env : ExecEnv) (r : StepResponse)
    (hval : validateInput input = none) (hphase : input.phase = none)
    (hr : (processStep input st env).1.content = .success r) :
    inferPhase st.sm input = specResolvedPhase st.sm input ∧
    r.phase = specResolvedPhase st.sm input := by
  have hinf : inferPhase st.sm input = specResolvedPhase st.sm input := by
    simp [inferPhase, specResolvedPhase, hphase, strFalsy, SMState.getStep]
  refine ⟨hinf, ?_⟩
  rw [← hinf]
  unfold processStep at hr
  rw [hval] at hr
  simp only at hr
  split at hr
  · split at hr
    · simp [handleError] at hr
    · split at hr
      · simp [handleError] at hr
      · simp [commitStep] at hr
        split at hr <;> (rw [← hr]; simp_all)
  · split at hr
    · simp [commitStep] at hr
      split at hr <;> (rw [← hr]; simp_all)
    · simp [commitStep] at hr
      split at hr <;> (rw [← hr]; simp_all)

/-- Witness for C1 at a concrete input: step 2 after a stored tool_call
step 1, no explicit phase, no toolCall — resolved phase must follow the
specification rule (here: `analysis`). -/
theorem c1_phase_inference_witness :
    inferPhase
        (processStep { baseInput with toolCall := some sampleCall }
          defaultServer
          { raceOutcome := .resolved (simulateToolExecution sampleCall),
            elapsed := 5, timestampNow := "T1" }).2.sm
        { baseInput with stepNumber := some 2, totalSteps := some 2 } =
      specResolvedPhase
        (processStep { baseInput with toolCall := some sampleCall }
          defaultServer
          { raceOutcome := .resolved (simulateToolExecution sampleCall),
            elapsed := 5, timestampNow := "T1" }).2.sm
        { baseInput with stepNumber := some 2, totalSteps := some 2 } ∧
    (⟨some 2, some 2, some true, [], 2, "analysis", some (true, 5)⟩ : StepResponse).phase =
      specResolvedPhase
        (processStep { baseInput with toolCall := some sampleCall }
          defaultServer
          { raceOutcome := .resolved (simulateToolExecution sampleCall),
            elapsed := 5, timestampNow := "T1" }).2.sm
        { baseInput with stepNumber := some 2, totalSteps := some 2 } :=
  c1_phase_inference_matches_spec _ _ idleEnv _ (by decide) (by decide) (by decide)

/-! ## Claim C2 -/

/-- Counterexample to Claim C2 as stated: after processing step 1 with
totalSteps 10 and then step 2 with totalSteps 2, the stored totalSteps of
the second step is 2, not max(2, 2, 10) = 10 — the stored value decreased
from 10 to 2, so there is no carry-over from the previous step. -/
theorem c2_total_steps_counterexample :
    (c2StateAfter1.sm.steps.map (fun s => s.totalSteps) = [some 10]) ∧
    (c2StateAfter2.sm.steps.map (fun s => s.totalSteps) = [some 10, some 2]) ∧
    ((2 : ℚ) ≠ max (max 2 2) 10) ∧ ((2 : ℚ) < 10) := by
  refine ⟨by decide, by decide, by norm_num, by norm_num⟩

/-- Claim C2 as amended: the totalSteps stored (and echoed) for a
processed step is `max(totalSteps_input, stepNumber_input)` of that step
alone; it does not incorporate the totalSteps of previously processed
steps, so it can be lower than the previously stored value. -/
theorem c2_amended_total_steps (st : ServerState) (input : InterleavedStepData) (env : ExecEnv)
    (qs qt : ℚ) (r : StepResponse)
    (hs : input.stepNumber = some qs) (ht : input.totalSteps = some qt)
    (hr : (processStep input st env).1.content = .success r) :
    r.totalSteps = some (max qt qs) ∧
    ((processStep input st env).2.sm.steps.getLast?.map (fun s => s.totalSteps)) =
      some (some (max qt qs)) := by
  have hmax : (if optNumGt input.stepNumber input.totalSteps = true
      then input.stepNumber else input.totalSteps) = some (max qt qs) := by
    rw [hs, ht]
    rcases le_or_lt qs qt with h | h
    · have hgt : optNumGt (some qs) (some qt) = false := by
        simp [optNumGt]; exact h
      simp [hgt, max_eq_left h]
    · have hgt : optNumGt (some qs) (some qt) = true := by
        simp [optNumGt]; exact h
      simp [hgt, max_eq_right h.le]
  rcases hv : validateInput input with _ | msg
  · unfold processStep at hr ⊢
    rw [hv] at hr ⊢
    simp only at hr ⊢
    split at hr
    · split at hr
      · simp [handleError] at hr
      · split at hr
        · simp [handleError] at hr
        · simp [commitStep] at hr
          split at hr <;>
            (rw [← hr]; simp_all [commitStep, SMState.addStep, SMState.getHistory])
    · split at hr
      · simp [commitStep] at hr
        split at hr <;>
          (rw [← hr]; simp_all [commitStep, SMState.addStep, SMState.getHistory])
      · simp [commitStep] at hr
        split at hr <;>
          (rw [← hr]; simp_all [commitStep, SMState.addStep, SMState.getHistory])
  · unfold processStep at hr
    rw [hv] at hr
    simp [handleError] at hr

/-- Witness for the amended C2 at a concrete input: step 5 with estimate 3
yields stored and echoed totalSteps max(3, 5). -/
theorem c2_amended_witness :
    (⟨some 5, some 5, some true, [], 1, "thinking", none⟩ : StepResponse).totalSteps =
      some (max (3 : ℚ) 5) ∧
    ((processStep c2WitnessInput defaultServer idleEnv).2.sm.steps.getLast?.map
      (fun s => s.totalSteps)) = some (some (max (3 : ℚ) 5)) :=
  c2_amended_total_steps defaultServer c2WitnessInput
    idleEnv 5 3 ⟨some 5, some 5, some true, [], 1, "thinking", none⟩
    (by decide) (by decide) (by decide)

/-! ## Claim C3 -/

/-- Claim C3: once the issued-call counter has reached `maxToolCalls`,
every further step resolving to the tool_call phase (with a `toolCall`
present) yields the ToolCallLimitError payload with the session state
returned unchanged; the equation holds for every execution environment,
so no mock lookup, cache lookup or execution is attempted, and the
counter is not incremented. -/
theorem c3_budget_enforcement (st : ServerState) (input : InterleavedStepData)
    (env : ExecEnv) (tc : ToolCallData)
    (hbudget : st.tcm.maxToolCalls ≤ st.tcm.callCount)
    (hval : validateInput input = none)
    (hphase : inferPhase st.sm input = "tool_call")
    (htc : input.toolCall = some tc) :
    processStep input st env =
      ({ content := .failure
          { error :=
              { type := "ToolCallLimitError"
                message := "Tool call limit reached"
                recoveryStrategy := some "Summarize progress and terminate or reset the server" }
            status := "failed" }
         isError := some true }, st) := by
  have hexec : executeToolCall st.tcm tc env = .error "Tool call limit reached" := by
    unfold executeToolCall canExecuteToolCall
    have hnot : ¬ st.tcm.callCount < st.tcm.maxToolCalls := not_lt.mpr hbudget
    simp [hnot]
  have hpayload : handleError "Tool call limit reached" =
    ({ content := .failure
        { error :=
            { type := "ToolCallLimitError"
              message := "Tool call limit reached"
              recoveryStrategy := some "Summarize progress and terminate or reset the server" }
          status := "failed" }
       isError := some true } : ProcessResult) := by decide
  unfold processStep
  rw [hval]
  simp only [hphase, htc, beq_self_eq_true, if_true]
  split
  · exfalso
    rename_i heq
    split at heq <;> simp at heq
  · rename_i tc1 heq
    have htc1 : tc1 = tc := by
      split at heq <;> (simp at heq; exact heq.symm)
    subst htc1
    rw [hexec]
    simp [hpayload]

/-- Witness for C3: a server configured with `maxToolCalls` 0 rejects its
very first tool_call step with the ToolCallLimitError payload and keeps
its state. -/
theorem c3_budget_witness :
    processStep { baseInput with toolCall := some sampleCall } c3Server idleEnv =
      ({ content := .failure
          { error :=
              { type := "ToolCallLimitError"
                message := "Tool call limit reached"
                recoveryStrategy := some "Summarize progress and terminate or reset the server" }
            status := "failed" }
         isError := some true }, c3Server) :=
  c3_budget_enforcement c3Server { baseInput with toolCall := some sampleCall } idleEnv
    sampleCall (by decide) (by decide) (by decide) (by decide)

/-! ## Claim C4 -/

/-- Counterexample to Claim C4 as stated: at `stepNumber` 0 the engine does
reject with the message "stepNumber must be a positive integer", but the
surfaced `error.type` is the generic `"Error"`, not `"ValidationError"`
(the classifier in `handleError` only maps messages containing "required"
to ValidationError); and the non-integer `stepNumber` 1.5 is not rejected
at all — the step is processed successfully. -/
theorem c4_validation_counterexample :
    (threeHalves = 3/2) ∧
    ((processStep c4ZeroInput defaultServer idleEnv).1 =
      { content := .failure
          { error :=
              { type := "Error"
                message := "stepNumber must be a positive integer"
                recoveryStrategy := some "Check input parameters and try again" }
            status := "failed" }
        isError := some true }) ∧
    ("Error" ≠ "ValidationError") ∧
    ((processStep c4HalfInput defaultServer idleEnv).1.isError = none) := by
  refine ⟨?_, by decide, by decide, by decide⟩
  rw [threeHalves, Rat.mk'_eq_divInt, Rat.divInt_eq_div]
  norm_num

/-- Claim C4 as amended: for every input whose `stepNumber` is absent or a
number below 1 (0 or negative; non-integers at or above 1 such as 1.5 pass
the check), `processStep` returns the error payload with `error.type`
`"Error"` and message "stepNumber must be a positive integer", and the
session state is returned unchanged. -/
theorem c4_amended_validation (st : ServerState) (input : InterleavedStepData) (env : ExecEnv)
    (h : input.stepNumber = none ∨ ∃ q : ℚ, input.stepNumber = some q ∧ q < 1) :
    processStep input st env =
      ({ content := .failure
          { error :=
              { type := "Error"
                message := "stepNumber must be a positive integer"
                recoveryStrategy := some "Check input parameters and try again" }
            status := "failed" }
         isError := some true }, st) := by
  have hv : validateInput input = some "stepNumber must be a positive integer" := by
    unfold validateInput
    rcases h with h | ⟨q, hq, hlt⟩
    · simp [h, numFalsy]
    · rcases eq_or_ne q 0 with h0 | h0
      · simp [hq, numFalsy, h0]
      · have hfalsy : numFalsy (some q) = false := by simp [numFalsy]; exact h0
        simp [hq, hfalsy, optNumLt, hlt]
  have hrun : processStep input st env =
      (handleError "stepNumber must be a positive integer", st) := by
    unfold processStep
    rw [hv]
  rw [hrun, show handleError "stepNumber must be a positive integer" =
    ({ content := .failure
        { error :=
            { type := "Error"
              message := "stepNumber must be a positive integer"
              recoveryStrategy := some "Check input parameters and try again" }
          status := "failed" }
       isError := some true } : ProcessResult) from by decide]

/-- Witness for the amended C4 at `stepNumber` 0. -/
theorem c4_amended_witness :
    processStep c4ZeroInput defaultServer idleEnv =
      ({ content := .failure
          { error :=
              { type := "Error"
                message := "stepNumber must be a positive integer"
                recoveryStrategy := some "Check input parameters and try again" }
            status := "failed" }
         isError := some true }, defaultServer) :=
  c4_amended_validation defaultServer c4ZeroInput idleEnv (Or.inr ⟨0, rfl, by norm_num⟩)

/-! ## Claim C7 -/

/-- Claim C7: a step rejected by validation, or resolving to the tool_call
phase while lacking a `toolCall`, leaves the session state exactly as it
was — in particular, the `getHistory()` step list and `stepHistoryLength`
are unchanged, so the rejected step never appears in any later history. -/
theorem c7_no_mutation_on_rejection (st : ServerState) (input : InterleavedStepData)
    (env : ExecEnv)
    (h : (validateInput input).isSome ∨
         (inferPhase st.sm input = "tool_call" ∧ input.toolCall = none)) :
    (processStep input st env).2 = st ∧
    ((processStep input st env).2.sm.getHistory).steps = (st.sm.getHistory).steps ∧
    ((processStep input st env).2.sm.getHistory).steps.length =
      (st.sm.getHistory).steps.length := by
  have hst : (processStep input st env).2 = st := by
    rcases hv : validateInput input with _ | msg
    · rcases h with h | ⟨hphase, htc⟩
      · rw [hv] at h; simp at h
      · unfold processStep
        rw [hv]
        simp only [hphase, htc, beq_self_eq_true, if_true]
        split
        · rfl
        · rename_i tc1 heq
          exfalso
          split at heq <;> simp [htc] at heq
    · unfold processStep
      rw [hv]
  exact ⟨hst, by rw [hst], by rw [hst]⟩

/-- Witness for C7: an input with no `stepNumber` is rejected and the
fresh server state survives untouched. -/
theorem c7_no_mutation_witness :
    ((processStep c7RejectedInput defaultServer idleEnv).2 = defaultServer ∧
      ((processStep c7RejectedInput defaultServer idleEnv).2.sm.getHistory).steps =
        (defaultServer.sm.getHistory).steps ∧
      ((processStep c7RejectedInput defaultServer idleEnv).2.sm.getHistory).steps.length =
        (defaultServer.sm.getHistory).steps.length) :=
  c7_no_mutation_on_rejection defaultServer c7RejectedInput idleEnv (Or.inl (by decide))

/-! ## Claim C5 -/

/-- Claim C5: the only exception `executeToolCall` raises is budget
exhaustion — any `.error` outcome carries exactly that message and implies
the budget check failed; and past the budget check, a race rejection (a
timeout included) is returned as a normal result with `success` false,
typed `TimeoutError` when the message mentions "timeout" and
`ToolExecutionError` otherwise. -/
theorem c5_failures_returned_not_thrown :
    (∀ (st : TCMState) (tc : ToolCallData) (env : ExecEnv) (msg : String),
      executeToolCall st tc env = .error msg →
        msg = "Tool call limit reached" ∧ canExecuteToolCall st = false) ∧
    (∀ (st : TCMState) (tc : ToolCallData) (env : ExecEnv) (m : String),
      canExecuteToolCall st = true →
      mockLookup st (getCacheKey tc) = none →
      cacheLookup st (getCacheKey tc) = none →
      env.raceOutcome = .rejected m →
      executeToolCall st tc env =
        .ok (failureResult tc m env, { st with callCount := st.callCount + 1 }) ∧
      (failureResult tc m env).success = false ∧
      ((failureResult tc m env).error.map (fun e => e.type)) =
        some (if strIncludes m "timeout" then "TimeoutError" else "ToolExecutionError")) := by
  constructor
  · intro st tc env msg h
    by_cases hcan : canExecuteToolCall st = true
    · obtain ⟨res, stX, hok⟩ := executeToolCall_ok_of_budget st tc env hcan
      rw [hok] at h
      simp at h
    · have hcanf : canExecuteToolCall st = false := by simpa using hcan
      unfold executeToolCall at h
      simp [hcanf] at h
      exact ⟨h.symm, hcanf⟩
  · intro st tc env m hcan hmock hmiss hrace
    exact ⟨executeToolCall_rejectedRun st tc env m hmock hmiss hcan hrace, rfl, rfl⟩

/-- Witness for C5: the exhausted-budget error on a zero-budget manager,
and a concrete timed-out call on a fresh manager returned as a
`success = false` result typed `TimeoutError`. -/
theorem c5_witness :
    ("Tool call limit reached" = "Tool call limit reached" ∧
      canExecuteToolCall c3Server.tcm = false) ∧
    (executeToolCall (mkServer 3 1000 true).tcm sampleCall timeoutEnv =
        .ok (failureResult sampleCall (timeoutMessage 1000) timeoutEnv,
             { (mkServer 3 1000 true).tcm with callCount := 1 }) ∧
      (failureResult sampleCall (timeoutMessage 1000) timeoutEnv).success = false ∧
      ((failureResult sampleCall (timeoutMessage 1000) timeoutEnv).error.map (fun e => e.type)) =
        some (if strIncludes (timeoutMessage 1000) "timeout" then "TimeoutError"
              else "ToolExecutionError")) :=
  ⟨c5_failures_returned_not_thrown.1 c3Server.tcm sampleCall idleEnv
      "Tool call limit reached" (by decide),
   c5_failures_returned_not_thrown.2 (mkServer 3 1000 true).tcm sampleCall timeoutEnv
      (timeoutMessage 1000) (by decide) (by decide) (by decide) (by decide)⟩

/-! ## Claim C6 -/

/-- Claim C6: with caching enabled, after a successful first execution of
a tool call, a second call with the same `toolName` and serialized
`parameters` (metadata free to differ) returns the very cached result
object for any second environment — no re-execution; every cache binding
ever present is either an old one or a successful result (failures are
never stored); and with caching disabled every budgeted call runs the
executor afresh. -/
theorem c6_cache_correctness :
    (∀ (st : TCMState) (tc1 tc2 : ToolCallData) (env1 env2 : ExecEnv)
        (r r1 : ToolResultData) (st1 : TCMState),
      st.mockResults = none →
      st.enableCache = true →
      tc1.toolName = tc2.toolName →
      tc1.parameters = tc2.parameters →
      cacheLookup st (getCacheKey tc1) = none →
      canExecuteToolCall st = true →
      env1.raceOutcome = .resolved r →
      r.success = true →
      executeToolCall st tc1 env1 = .ok (r1, st1) →
      canExecuteToolCall st1 = true →
      executeToolCall st1 tc2 env2 = .ok (r, { st1 with callCount := st1.callCount + 1 })) ∧
    (∀ (st : TCMState) (tc : ToolCallData) (env : ExecEnv)
        (res : ToolResultData) (st1 : TCMState) (p : String × ToolResultData),
      executeToolCall st tc env = .ok (res, st1) →
      p ∈ st1.resultCache → p ∈ st.resultCache ∨ p.2.success = true) ∧
    (∀ (st : TCMState) (tc : ToolCallData) (env : ExecEnv) (r : ToolResultData),
      st.enableCache = false →
      st.mockResults = none →
      canExecuteToolCall st = true →
      env.raceOutcome = .resolved r →
      executeToolCall st tc env =
        .ok ({ r with executionTime := env.elapsed, timestamp := env.timestampNow },
             { st with callCount := st.callCount + 1 })) := by
  refine ⟨?_, ?_, ?_⟩
  · intro st tc1 tc2 env1 env2 r r1 st1 hmockR hcache hname hparams hmiss hb hrace hsucc hexec hb1
    have hmock : mockLookup st (getCacheKey tc1) = none := by simp [mockLookup, hmockR]
    have hkey : getCacheKey tc2 = getCacheKey tc1 := by simp [getCacheKey, hname, hparams]
    have h1 := executeToolCall_fresh st tc1 env1 r hmock hmiss hb hrace
    rw [hexec, hcache, hsucc] at h1
    simp only [Bool.and_self, if_true, Except.ok.injEq, Prod.mk.injEq] at h1
    obtain ⟨hr1, hst1⟩ := h1
    have hmock1 : mockLookup st1 (getCacheKey tc2) = none := by
      rw [hst1]
      simp [mockLookup, hmockR]
    have hhit : cacheLookup st1 (getCacheKey tc2) = some r := by
      rw [hst1, hkey]
      simp [cacheLookup, hcache, mapGet_mapSet_self]
    exact executeToolCall_cacheHit st1 tc2 env2 r hmock1 hhit hb1
  · intro st tc env res st1 p hexec hp
    by_cases hcan : canExecuteToolCall st = true
    · unfold executeToolCall at hexec
      rw [hcan] at hexec
      simp only [not_true_eq_false, Bool.false_eq_true, if_false] at hexec
      rcases hm : mockLookup { st with callCount := st.callCount + 1 } (getCacheKey tc)
        with _ | fix
      · rcases hc : cacheLookup { st with callCount := st.callCount + 1 } (getCacheKey tc)
          with _ | cached
        · rcases hr : env.raceOutcome with r2 | m
          · simp only [hm, hc, hr] at hexec
            split at hexec
            · rename_i hcond
              simp only [Except.ok.injEq, Prod.mk.injEq] at hexec
              obtain ⟨hres, hst1⟩ := hexec
              rw [← hst1] at hp
              simp only at hp
              rcases mem_mapSet _ _ _ _ hp with hin | hnew
              · exact Or.inl hin
              · right
                rw [hnew]
                exact (Bool.and_eq_true _ _ |>.mp hcond).2
            · simp only [Except.ok.injEq, Prod.mk.injEq] at hexec
              obtain ⟨hres, hst1⟩ := hexec
              rw [← hst1] at hp
              exact Or.inl hp
          · simp only [hm, hc, hr, Except.ok.injEq, Prod.mk.injEq] at hexec
            obtain ⟨hres, hst1⟩ := hexec
            rw [← hst1] at hp
            exact Or.inl hp
        · simp only [hm, hc, Except.ok.injEq, Prod.mk.injEq] at hexec
          obtain ⟨hres, hst1⟩ := hexec
          rw [← hst1] at hp
          exact Or.inl hp
      · simp only [hm, Except.ok.injEq, Prod.mk.injEq] at hexec
        obtain ⟨hres, hst1⟩ := hexec
        rw [← hst1] at hp
        exact Or.inl hp
    · have hcanf : canExecuteToolCall st = false := by simpa using hcan
      unfold executeToolCall at hexec
      simp [hcanf] at hexec
  · intro st tc env r hcacheF hmockR hcan hrace
    have hmock : mockLookup st (getCacheKey tc) = none := by simp [mockLookup, hmockR]
    have hmiss : cacheLookup st (getCacheKey tc) = none := by simp [cacheLookup, hcacheF]
    have h := executeToolCall_fresh st tc env r hmock hmiss hcan hrace
    have hcond : (st.enableCache && r.success) = false := by rw [hcacheF]; simp
    simpa [hcond] using h

/-- Witness for C6: a concrete first call of `fetch` gets cached; the
second call — differing only in metadata — returns the cached raw result
under an environment whose race would reject; nothing in a fresh cache is
a failure; and with caching off the executor's outcome is stamped and
returned. -/
theorem c6_witness :
    (executeToolCall c6After1 sampleCallMeta idleEnv =
      .ok (simulateToolExecution sampleCall, { c6After1 with callCount := c6After1.callCount + 1 })) ∧
    ((getCacheKey sampleCall, simulateToolExecution sampleCall) ∈ c6Manager.resultCache ∨
      (getCacheKey sampleCall, simulateToolExecution sampleCall).2.success = true) ∧
    (executeToolCall c6ManagerNoCache sampleCall c6Env1 =
      .ok ({ simulateToolExecution sampleCall with
             executionTime := c6Env1.elapsed
             timestamp := c6Env1.timestampNow },
           { c6ManagerNoCache with callCount := c6ManagerNoCache.callCount + 1 })) :=
  ⟨c6_cache_correctness.1 c6Manager sampleCall sampleCallMeta c6Env1 idleEnv
      (simulateToolExecution sampleCall)
      { simulateToolExecution sampleCall with executionTime := 7, timestamp := "T1" }
      c6After1 (by decide) (by decide) (by decide) (by decide) (by decide) (by decide)
      (by decide) (by decide) (by decide) (by decide),
   c6_cache_correctness.2.1 c6Manager sampleCall c6Env1
      { simulateToolExecution sampleCall with executionTime := 7, timestamp := "T1" }
      c6After1 (getCacheKey sampleCall, simulateToolExecution sampleCall)
      (by decide) (by decide),
   c6_cache_correctness.2.2 c6ManagerNoCache sampleCall c6Env1 (simulateToolExecution sampleCall)
      (by decide) (by decide) (by decide) (by decide)⟩

/-! ## Claim C9 -/

/-- Claim C9: `reset()` zeroes the call counter, clears the result cache
and replaces the step history with an empty one, but keeps injected mock
results: a matching tool call issued after the reset still returns the
injected fixture verbatim (consuming one budget slot). -/
theorem c9_reset_preserves_mocks (st : ServerState) (mocks : List (String × ToolResultData))
    (fixture : ToolResultData) (tc : ToolCallData) (env : ExecEnv)
    (hmock : st.tcm.mockResults = some mocks)
    (hfix : mapGet mocks (getCacheKey tc) = some fixture)
    (hmax : 0 < st.tcm.maxToolCalls) :
    st.reset.tcm.callCount = 0 ∧
    st.reset.tcm.resultCache = [] ∧
    st.reset.sm = emptySM ∧
    st.reset.tcm.mockResults = some mocks ∧
    executeToolCall st.reset.tcm tc env =
      .ok (fixture, { st.reset.tcm with callCount := st.reset.tcm.callCount + 1 }) := by
  refine ⟨rfl, rfl, rfl, ?_, ?_⟩
  · simp [ServerState.reset, TCMState.reset, hmock]
  · apply executeToolCall_mockHit
    · simp [mockLookup, ServerState.reset, TCMState.reset, hmock, hfix]
    · simp only [canExecuteToolCall, ServerState.reset, TCMState.reset]
      simpa using hmax

/-- Witness for C9 on a mid-session server: after reset, the counter,
cache and history are empty, the mock map survives, and the mocked call
returns the fixture verbatim. -/
theorem c9_witness :
    c9DirtyServer.reset.tcm.callCount = 0 ∧
    c9DirtyServer.reset.tcm.resultCache = [] ∧
    c9DirtyServer.reset.sm = emptySM ∧
    c9DirtyServer.reset.tcm.mockResults = some [(getCacheKey sampleCall, c9Fixture)] ∧
    executeToolCall c9DirtyServer.reset.tcm sampleCall idleEnv =
      .ok (c9Fixture,
        { c9DirtyServer.reset.tcm with callCount := c9DirtyServer.reset.tcm.callCount + 1 }) :=
  c9_reset_preserves_mocks c9DirtyServer [(getCacheKey sampleCall, c9Fixture)] c9Fixture
    sampleCall idleEnv (by decide) (by decide) (by decide)

/-! ## Claim C10 -/

/-- Claim C10: the object stored in the result cache is the executor's raw
result — for the built-in simulated executor, `executionTime` 0 and
timestamp `""` — captured before stamping; the first invocation returns
the stamped copy (`env.elapsed` / `env.timestampNow`), while every
cache-hit invocation returns the raw cached object itself, for any second
environment. -/
theorem c10_cache_stores_raw_result (st : TCMState) (tc : ToolCallData)
    (env1 env2 : ExecEnv) (r1 : ToolResultData) (st1 : TCMState)
    (hmockR : st.mockResults = none)
    (hcache : st.enableCache = true)
    (hmiss : cacheLookup st (getCacheKey tc) = none)
    (hb : canExecuteToolCall st = true)
    (hrace : env1.raceOutcome = .resolved (simulateToolExecution tc))
    (hexec : executeToolCall st tc env1 = .ok (r1, st1))
    (hb1 : canExecuteToolCall st1 = true) :
    mapGet st1.resultCache (getCacheKey tc) = some (simulateToolExecution tc) ∧
    (simulateToolExecution tc).executionTime = 0 ∧
    (simulateToolExecution tc).timestamp = "" ∧
    r1.executionTime = env1.elapsed ∧
    r1.timestamp = env1.timestampNow ∧
    executeToolCall st1 tc env2 =
      .ok (simulateToolExecution tc, { st1 with callCount := st1.callCount + 1 }) := by
  have hmock : mockLookup st (getCacheKey tc) = none := by simp [mockLookup, hmockR]
  have h1 := executeToolCall_fresh st tc env1 (simulateToolExecution tc) hmock hmiss hb hrace
  rw [hexec, hcache] at h1
  simp only [simulateToolExecution, Bool.and_self, if_true, Except.ok.injEq,
    Prod.mk.injEq] at h1
  obtain ⟨hr1, hst1⟩ := h1
  have hcacheGet : mapGet st1.resultCache (getCacheKey tc) = some (simulateToolExecution tc) := by
    rw [hst1]
    simp [simulateToolExecution, mapGet_mapSet_self]
  refine ⟨hcacheGet, rfl, rfl, by rw [hr1], by rw [hr1], ?_⟩
  have hmock1 : mockLookup st1 (getCacheKey tc) = none := by
    rw [hst1]
    simp [mockLookup, hmockR]
  have hhit : cacheLookup st1 (getCacheKey tc) = some (simulateToolExecution tc) := by
    rw [hst1]
    simp [cacheLookup, hcache, simulateToolExecution, mapGet_mapSet_self]
  exact executeToolCall_cacheHit st1 tc env2 (simulateToolExecution tc) hmock1 hhit hb1

/-- Witness for C10: after the concrete first call (stamped 7 ms, "T1"),
the cache holds the raw result (0, "") and the second call returns exactly
that raw object. -/
theorem c10_witness :
    mapGet c6After1.resultCache (getCacheKey sampleCall) = some (simulateToolExecution sampleCall) ∧
    (simulateToolExecution sampleCall).executionTime = 0 ∧
    (simulateToolExecution sampleCall).timestamp = "" ∧
    ({ simulateToolExecution sampleCall with executionTime := 7, timestamp := "T1" } :
      ToolResultData).executionTime = c6Env1.elapsed ∧
    ({ simulateToolExecution sampleCall with executionTime := 7, timestamp := "T1" } :
      ToolResultData).timestamp = c6Env1.timestampNow ∧
    executeToolCall c6After1 sampleCall idleEnv =
      .ok (simulateToolExecution sampleCall, { c6After1 with callCount := c6After1.callCount + 1 }) :=
  c10_cache_stores_raw_result c6Manager sampleCall c6Env1 idleEnv
    { simulateToolExecution sampleCall with executionTime := 7, timestamp := "T1" }
    c6After1 (by decide) (by decide) (by decide) (by decide) (by decide) (by decide) (by decide)

/-! ## Claim C8 -/

/-- Claim C8: for every input, state and environment, `processStep`
returns a `ProcessResult` that is either the uniform error payload —
`error` record plus `status := "failed"` inside, `isError` true on the
envelope — or a success payload with `isError` absent; every internal
throw (validation, missing toolCall, budget exhaustion) is converted, and
no exception escapes. -/
theorem c8_uniform_error_envelope (input : InterleavedStepData) (st : ServerState)
    (env : ExecEnv) :
    ((processStep input st env).1.isError = some true ∧
      ∃ e : ErrorInfo, (processStep input st env).1.content =
        .failure { error := e, status := "failed" }) ∨
    ((processStep input st env).1.isError = none ∧
      ∃ r : StepResponse, (processStep input st env).1.content = .success r) := by
  have hshape : ∀ msg : String, (handleError msg).isError = some true ∧
      ∃ e : ErrorInfo, (handleError msg).content =
        .failure { error := e, status := "failed" } := by
    intro msg
    exact ⟨rfl, ⟨_, rfl⟩⟩
  have hcommit : ∀ (i : InterleavedStepData) (s : ServerState) (tr : Option ToolResultData),
      (commitStep i s tr).1.isError = none ∧
      ∃ r : StepResponse, (commitStep i s tr).1.content = .success r := by
    intro i s tr
    exact ⟨rfl, ⟨_, rfl⟩⟩
  unfold processStep
  rcases hv : validateInput input with _ | msg
  · simp only
    split
    · split
      · exact Or.inl (hshape _)
      · split
        · exact Or.inl (hshape _)
        · exact Or.inr (hcommit _ _ _)
    · split
      · exact Or.inr (hcommit _ _ _)
      · exact Or.inr (hcommit _ _ _)
  · exact Or.inl (hshape msg)

end InterleavedThinking
